import Mathlib

/-!
Verification development for the Job reconciliation controller
(`pkg/controller/job`) and the pluralization namer of this repository.

The controller implementation itself (`syncJob`, `manageJob`, the
expectations tracker, the work queue and the pod/job lookup helpers) is
exercised by `pkg/controller/job/job_controller_test.go`; the definitions
below embed that behavior.  Where a definition models code whose file is
not part of the sources, its doc comment says so and names the section of
the design document it follows, together with the test that pins the
behavior.
-/

namespace KubeJob

/-! ## Data model: pods and jobs -/

/-- Pod phase, from `api.PodPhase` (`PodPending`, `PodRunning`,
`PodSucceeded`, `PodFailed`, `PodUnknown`). -/
inductive PodPhase where
  | pending
  | running
  | succeeded
  | failed
  | unknown
deriving DecidableEq, Repr

/-- Restart policy of a pod template, from `api.RestartPolicy`. -/
inductive RestartPolicy where
  | always
  | onFailure
  | never
deriving DecidableEq, Repr

/-- Labels and label selectors are finite maps from keys to values,
embedded as association lists. -/
abbrev Labels := List (String × String)

/-- Lookup of a label key, first binding wins (Go map semantics with the
lists we build having distinct keys). -/
def labelsGet (ls : Labels) (k : String) : Option String :=
  (ls.find? (fun p => p.1 = k)).map Prod.snd

/-- `labels.Set(selector).AsSelector().Matches(labels.Set(podLabels))`:
every key/value pair of the selector is present among the pod's labels. -/
def selectorMatches (sel : Labels) (podLabels : Labels) : Bool :=
  sel.all (fun p => labelsGet podLabels p.1 = some p.2)

/-- A pod as the controller sees it: identity, namespace, labels and
phase (`api.Pod`, the fields used by the job controller and its tests). -/
structure Pod where
  name : String
  ns : String
  labels : Labels
  phase : PodPhase
deriving DecidableEq, Repr

/-- Condition type of a job condition; the only one used is
`experimental.JobComplete`. -/
inductive JobConditionType where
  | complete
deriving DecidableEq, Repr

/-- `api.ConditionStatus`. -/
inductive ConditionStatus where
  | conditionTrue
  | conditionFalse
  | conditionUnknown
deriving DecidableEq, Repr

/-- A timestamped job condition, embedded without the timestamps (they do
not take part in any compared behavior). -/
structure JobCondition where
  condType : JobConditionType
  status : ConditionStatus
deriving DecidableEq, Repr

/-- `experimental.JobSpec`: target parallelism, target completions, label
selector and the pod template's restart policy (the only template field
the sync logic reads).  Go `int` fields are embedded as `Int`. -/
structure JobSpec where
  parallelism : Int
  completions : Int
  selector : Labels
  restartPolicy : RestartPolicy
deriving DecidableEq, Repr

/-- `experimental.JobStatus`: condition list and the three counters. -/
structure JobStatus where
  conditions : List JobCondition
  active : Int
  successful : Int
  unsuccessful : Int
deriving DecidableEq, Repr

/-- `experimental.Job`: identity plus spec and status. -/
structure Job where
  name : String
  ns : String
  spec : JobSpec
  status : JobStatus
deriving DecidableEq, Repr

/-- `controller.KeyFunc`: the namespace/name reconciliation key. -/
def jobKey (j : Job) : String := j.ns ++ "/" ++ j.name

/-- The complete condition the sync appends
(`experimental.JobComplete` with status `api.ConditionTrue`). -/
def completeCondition : JobCondition :=
  { condType := JobConditionType.complete, status := ConditionStatus.conditionTrue }

/-- Whether a condition list already carries a condition of the same
type and status as the terminal complete condition (the check the test
`TestControllerSyncJob` performs on `actual.Status.Conditions`). -/
def hasCompleteCondition (conds : List JobCondition) : Bool :=
  conds.any (fun c =>
    c.condType = JobConditionType.complete ∧
    c.status = ConditionStatus.conditionTrue)

/-! ## Pluralization namer (`pluralNamer.Name`, package `namer`) -/

/-- Go map lookup `r.exceptions[singular]` over the association-list
embedding of the exceptions map. -/
def exceptionsGet (exceptions : List (String × String)) (s : String) : Option String :=
  (exceptions.find? (fun p => p.1 = s)).map Prod.snd

/-- `pluralNamer.Name` on a type's name: the exceptions map wins;
otherwise the plural is formed from the last character ("es" after
"s"/"x", trailing "y" becomes "ies", "s" in every other case), and the
finalizer is applied.  The Go code indexes `singular[len(singular)-1]`,
which panics for an empty name that is not an exception; that failure is
embedded as `none`. -/
def pluralNamerName (exceptions : List (String × String))
    (finalize : String → String) (singular : String) : Option String :=
  match exceptionsGet exceptions singular with
  | some plural => some (finalize plural)
  | none =>
    match singular.toList.getLast? with
    | none => none
    | some c =>
      if c = 's' ∨ c = 'x' then some (finalize (singular ++ "es"))
      else if c = 'y' then
        some (finalize (String.mk singular.toList.dropLast ++ "ies"))
      else some (finalize (singular ++ "s"))

/-! ## Pod partitioning and status counting -/

/-- `controller.FilterActivePods`: a pod is active while its phase is
neither succeeded nor failed (pending and running pods both count, as
`TestSyncJobExpectations` relies on for its pending pods). -/
def isActivePod (p : Pod) : Bool :=
  p.phase ≠ PodPhase.succeeded ∧ p.phase ≠ PodPhase.failed

/-- Pods of the store that belong to the job: same namespace and label
selector match (the `podStore.Pods(job.Namespace).List(selector)` view). -/
def relatedPods (job : Job) (store : List Pod) : List Pod :=
  store.filter (fun p =>
    p.ns = job.ns ∧ selectorMatches job.spec.selector p.labels = true)

/-- Count of active pods among the job's pods. -/
def countActive (pods : List Pod) : Nat :=
  (pods.filter isActivePod).length

/-- Count of succeeded pods. -/
def countSucceeded (pods : List Pod) : Nat :=
  (pods.filter (fun p => p.phase = PodPhase.succeeded)).length

/-- Count of failed pods. -/
def countFailed (pods : List Pod) : Nat :=
  (pods.filter (fun p => p.phase = PodPhase.failed)).length

/-- Modelled from the spec: the status partition of §4.5 step 3 for the
`getStatus` helper whose file is not among the sources.  `successful`
counts succeeded pods; `unsuccessful` counts failed pods only under
restart policy Never — pinned by `TestControllerSyncJob` ("failed pod and
OnFailure restart policy" expects `unsuccessful = 0` while "failed pod
and Never restart policy" expects `unsuccessful = 1` on the same pods). -/
def getStatusCounts (job : Job) (pods : List Pod) : Int × Int :=
  ((countSucceeded pods : Int),
   if job.spec.restartPolicy = RestartPolicy.never
   then (countFailed pods : Int) else 0)

/-- Completed executions the sync credits toward `completions`:
succeeded pods plus, under restart policy Never, failed pods — pinned by
the rows "job finish and OnFailure restart policy" and "job finish and
Never restart policy" of `TestControllerSyncJob`. -/
def doneCount (job : Job) (pods : List Pod) : Int :=
  (getStatusCounts job pods).1 + (getStatusCounts job pods).2

/-! ## Pod control and the manage step -/

/-- The pod-control collaborator of §4.4, seen through its effect on a
batch: whether the i-th create (resp. delete) call of a batch fails.
`FakePodControl` with a constant error is the special case of a
constantly-true failure function; calls that fail record nothing. -/
structure PodControl where
  createFails : Nat → Bool
  deleteFails : Nat → Bool

/-- A pod control that never fails (the test's `FakePodControl` with
`err = nil`). -/
def reliablePodControl : PodControl :=
  { createFails := fun _ => false, deleteFails := fun _ => false }

/-- A pod control whose every call fails (the test's `FakePodControl`
with a non-nil `err`). -/
def failingPodControl : PodControl :=
  { createFails := fun _ => true, deleteFails := fun _ => true }

/-- How many of the first `n` calls of a batch fail. -/
def countFails (f : Nat → Bool) (n : Nat) : Nat :=
  ((List.range n).filter f).length

/-- Outcome of the manage step for one sync. -/
structure ManageResult where
  createsIssued : Nat
  deletesIssued : Nat
  createsFailed : Nat
  deletesFailed : Nat
  expAdd : Option Int
  expDel : Option Int
  active : Int
deriving Repr

/-- Modelled from the spec: the `manageJob` step of §4.5 step 4, whose
file is not among the sources.  `diff` is the gap between parallelism
and the active count, clamped on the create side by the remaining need
(`completions` minus completed executions, the clamp realized so the
post-create active count never exceeds the remaining need, as §8's
convergence property and the `TestControllerSyncJob` table require).
Expectations are set before the batch and compensated downward for each
failed call (§4.4); a failed create lowers the returned active count and
a failed delete raises it, pinned by the two "with controller error"
rows of `TestControllerSyncJob`.  `expAdd`/`expDel` are the outstanding
counters after the batch when the step set them (`none` when the step
did not touch expectations). -/
def manageJob (pc : PodControl) (parallelism completions active successful unsuccessful : Int)
    (policy : RestartPolicy) : ManageResult :=
  if parallelism < active then
    let diff := active - parallelism
    let issued := diff.toNat
    let failed := countFails pc.deleteFails issued
    { createsIssued := 0, deletesIssued := issued,
      createsFailed := 0, deletesFailed := failed,
      expAdd := none, expDel := some (diff - (failed : Int)),
      active := parallelism + (failed : Int) }
  else if active < parallelism then
    let remaining := completions - successful -
      (if policy = RestartPolicy.never then unsuccessful else 0)
    let wantActive := min remaining parallelism
    let diff := wantActive - active
    let issued := diff.toNat
    let failed := countFails pc.createFails issued
    { createsIssued := issued, deletesIssued := 0,
      createsFailed := failed, deletesFailed := 0,
      expAdd := some (diff - (failed : Int)), expDel := none,
      active := wantActive - (failed : Int) }
  else
    { createsIssued := 0, deletesIssued := 0,
      createsFailed := 0, deletesFailed := 0,
      expAdd := none, expDel := none,
      active := active }

/-! ## The sync loop -/

/-- Inputs of one `syncJob` run: the key, the job cache store, the
readiness of the pod store, the (possibly faked) answer of
`SatisfiedExpectations`, the pod store contents at the moment the pods
are listed — which is after the expectations check, so pods added during
that check are visible, as `TestSyncJobExpectations` arranges — the pod
control and whether the status-update hook fails. -/
structure SyncInputs where
  key : String
  jobStore : List Job
  podStoreSynced : Bool
  satisfied : Bool
  podsAtList : List Pod
  pc : PodControl
  updateFails : Bool

/-- Outcome of one `syncJob` run.  `computed` is the job status the sync
arrived at (present whenever the full reconciliation path ran);
`updated` is what the external update hook received (present only when
the computed status differs from the stored one); `recorded` counts are
what the test's `FakePodControl` accumulates, i.e. only successful
calls. -/
structure SyncResult where
  createsIssued : Nat
  deletesIssued : Nat
  createsRecorded : Nat
  deletesRecorded : Nat
  expAdd : Option Int
  expDel : Option Int
  expectationsDeleted : Bool
  computed : Option JobStatus
  updated : Option JobStatus
  requeued : Bool
  err : Bool
deriving Repr

/-- A sync outcome with no effects at all. -/
def noopSync : SyncResult :=
  { createsIssued := 0, deletesIssued := 0,
    createsRecorded := 0, deletesRecorded := 0,
    expAdd := none, expDel := none, expectationsDeleted := false,
    computed := none, updated := none, requeued := false, err := false }

/-- `GetByKey` on the job cache store. -/
def findJob (store : List Job) (key : String) : Option Job :=
  store.find? (fun j => jobKey j = key)

/-- The condition update of §4.5 step 5: append the terminal complete
condition when the completed executions reach `completions`, but never
duplicate an already-present condition of the same type and status. -/
def updateConditions (done completions : Int) (conds : List JobCondition) :
    List JobCondition :=
  if done ≥ completions ∧ hasCompleteCondition conds = false
  then conds ++ [completeCondition] else conds

/-- Active pods of the job in the given pod store, as a Go `int`. -/
def jobActive (job : Job) (store : List Pod) : Int :=
  (countActive (relatedPods job store) : Int)

/-- The `successful` count the sync computes for the job. -/
def jobSuccessful (job : Job) (store : List Pod) : Int :=
  (getStatusCounts job (relatedPods job store)).1

/-- The `unsuccessful` count the sync computes for the job. -/
def jobUnsuccessful (job : Job) (store : List Pod) : Int :=
  (getStatusCounts job (relatedPods job store)).2

/-- Completed executions the sync credits toward the job's target. -/
def jobDone (job : Job) (store : List Pod) : Int :=
  doneCount job (relatedPods job store)

/-- The reconciliation path of `syncJob` once the job is found, the pod
store is synced and expectations are satisfied: count the job's pods,
run the manage step, recompute status and conditions, and hand the
status to the update hook only when it changed. -/
def syncCore (inp : SyncInputs) (job : Job) : SyncResult :=
  let active := jobActive job inp.podsAtList
  let successful := jobSuccessful job inp.podsAtList
  let unsuccessful := jobUnsuccessful job inp.podsAtList
  let m := manageJob inp.pc job.spec.parallelism job.spec.completions
    active successful unsuccessful job.spec.restartPolicy
  let newStatus : JobStatus :=
    { conditions := updateConditions (successful + unsuccessful)
        job.spec.completions job.status.conditions,
      active := m.active, successful := successful, unsuccessful := unsuccessful }
  let changed := newStatus ≠ job.status
  { createsIssued := m.createsIssued, deletesIssued := m.deletesIssued,
    createsRecorded := m.createsIssued - m.createsFailed,
    deletesRecorded := m.deletesIssued - m.deletesFailed,
    expAdd := m.expAdd, expDel := m.expDel, expectationsDeleted := false,
    computed := some newStatus,
    updated := if changed then some newStatus else none,
    requeued := changed ∧ inp.updateFails, err := false }

/-- Modelled from the spec: the `syncJob` state machine of §4.5, whose
file is not among the sources; its behavior on each branch is pinned by
`TestControllerSyncJob`, `TestSyncJobDeleted`, `TestSyncJobUpdateRequeue`
and `TestSyncJobExpectations`.  In order: a key whose job is absent
clears expectations and returns no error; an unsynced pod store requeues
without acting; unsatisfied expectations end the sync without acting
(§4.5 step 2); otherwise `syncCore` reconciles, and an update failure
requeues the key rather than surfacing an error (the tests assert
`syncJob` returns nil even when pod control or the update hook fail). -/
def syncJob (inp : SyncInputs) : SyncResult :=
  match findJob inp.jobStore inp.key with
  | none => { noopSync with expectationsDeleted := true }
  | some job =>
    if inp.podStoreSynced = false then { noopSync with requeued := true }
    else if inp.satisfied = false then noopSync
    else syncCore inp job

/-! ## The test harness's concrete jobs and pods (`newJob`, `newPodList`) -/

/-- `newJob` of the test file: name "foobar" in the default namespace,
selector `foo=bar`, empty status. -/
def newJob (parallelism completions : Int) (policy : RestartPolicy) : Job :=
  { name := "foobar", ns := "default",
    spec := { parallelism := parallelism, completions := completions,
              selector := [("foo", "bar")], restartPolicy := policy },
    status := { conditions := [], active := 0, successful := 0, unsuccessful := 0 } }

/-- `newPodList` of the test file: `count` pods labelled with the job's
selector, in the job's namespace, all in the given phase. -/
def newPodList (count : Nat) (phase : PodPhase) (job : Job) (prefixStr : String) :
    List Pod :=
  (List.range count).map (fun i =>
    { name := prefixStr ++ toString i, ns := job.ns,
      labels := job.spec.selector, phase := phase })

/-- The pod store a `TestControllerSyncJob` row builds: `nActive` running,
`nSucc` succeeded and `nFail` failed pods for the job. -/
def testPodStore (job : Job) (nActive nSucc nFail : Nat) : List Pod :=
  newPodList nActive PodPhase.running job "run-" ++
  newPodList nSucc PodPhase.succeeded job "ok-" ++
  newPodList nFail PodPhase.failed job "bad-"

/-- Sync inputs of one `TestControllerSyncJob` row: the job in the store
under its key, a synced pod store, satisfied expectations and a reliable
update hook. -/
def testInputs (parallelism completions : Int) (policy : RestartPolicy)
    (nActive nSucc nFail : Nat) (pc : PodControl) : SyncInputs :=
  let job := newJob parallelism completions policy
  { key := jobKey job, jobStore := [job], podStoreSynced := true,
    satisfied := true, podsAtList := testPodStore job nActive nSucc nFail,
    pc := pc, updateFails := false }

/-! ## Pod to job resolution (`getPodJob`) -/

/-- Modelled from the spec: event dispatch resolves a pod event to its
controlling job "via selector match" (§2); the `getPodJob` helper and
the store lister behind it are not among the sources.  Pinned by
`TestJobPodLookup`: a pod without labels matches no job; a job is
considered only in its own namespace, only with a non-empty selector,
and only when the selector matches the pod's labels. -/
def getPodJob (store : List Job) (pod : Pod) : Option Job :=
  if pod.labels.isEmpty then none
  else store.find? (fun j =>
    j.ns = pod.ns ∧ j.spec.selector ≠ [] ∧
    selectorMatches j.spec.selector pod.labels = true)

/-! ## The deduplicating work queue -/

/-- Modelled from the spec: the work queue of §4.2, whose file is not
among the sources.  `pending` is the queue of keys awaiting a `Get`,
`processing` the keys handed out and not yet `Done`, and `deferredAdds`
the keys re-added while being processed, to be re-queued on `Done`. -/
structure WorkQueue where
  pending : List String
  processing : List String
  deferredAdds : List String
deriving DecidableEq, Repr

/-- The queue as constructed: empty. -/
def emptyQueue : WorkQueue :=
  { pending := [], processing := [], deferredAdds := [] }

/-- Modelled from the spec: `Add(key)` is idempotent — "if key is
already queued or currently being processed, the add is merged" (§4.2).
An add during processing is remembered for re-queueing on `Done`. -/
def wqAdd (q : WorkQueue) (k : String) : WorkQueue :=
  if k ∈ q.pending then q
  else if k ∈ q.processing then
    if k ∈ q.deferredAdds then q
    else { q with deferredAdds := q.deferredAdds ++ [k] }
  else { q with pending := q.pending ++ [k] }

/-- Modelled from the spec: `Get` hands out the oldest pending key and
marks it processing; `none` embeds the blocked/shut-down answer. -/
def wqGet (q : WorkQueue) : Option (String × WorkQueue) :=
  match q.pending with
  | [] => none
  | k :: rest =>
    some (k, { pending := rest, processing := q.processing ++ [k],
               deferredAdds := q.deferredAdds })

/-- Modelled from the spec: `Done(key)` ends processing; "if `Add` was
called for that key while it was processing, the key is automatically
re-queued on `Done`" (§4.2). -/
def wqDone (q : WorkQueue) (k : String) : WorkQueue :=
  if k ∈ q.deferredAdds then
    { pending := q.pending ++ [k], processing := q.processing.erase k,
      deferredAdds := q.deferredAdds.erase k }
  else { q with processing := q.processing.erase k }

/-- One client interaction with the work queue. -/
inductive WQStep : WorkQueue → WorkQueue → Prop where
  | add (q : WorkQueue) (k : String) : WQStep q (wqAdd q k)
  | get (q : WorkQueue) (k : String) (q2 : WorkQueue)
      (h : wqGet q = some (k, q2)) : WQStep q q2
  | done (q : WorkQueue) (k : String) : WQStep q (wqDone q k)

/-- Queue states reachable from the freshly constructed queue. -/
inductive WQReachable : WorkQueue → Prop where
  | init : WQReachable emptyQueue
  | step (q q2 : WorkQueue) : WQReachable q → WQStep q q2 → WQReachable q2

/-- The queue's structural invariant: no duplicates anywhere, a pending
key is never simultaneously in flight, and deferred re-adds concern only
keys in flight. -/
structure WQInv (q : WorkQueue) : Prop where
  pendingNodup : q.pending.Nodup
  processingNodup : q.processing.Nodup
  deferredNodup : q.deferredAdds.Nodup
  pendingDisjoint : ∀ k, k ∈ q.pending → k ∉ q.processing
  deferredSub : ∀ k, k ∈ q.deferredAdds → k ∈ q.processing

/-- The requeue the reconciler performs after a failed status update:
the sync's key goes back on the work queue. -/
def requeueAfterSync (inp : SyncInputs) (q : WorkQueue) : WorkQueue :=
  if (syncJob inp).requeued then wqAdd q inp.key else q

/-! ## Theorems: work queue invariant -/

/-- The empty queue satisfies the invariant. -/
theorem wqInv_empty : WQInv emptyQueue := by
  refine ⟨?_, ?_, ?_, ?_, ?_⟩ <;> simp [emptyQueue]

/-- `Add` preserves the queue invariant. -/
theorem wqInv_add (q : WorkQueue) (k : String) (h : WQInv q) : WQInv (wqAdd q k) := by
  unfold wqAdd
  split
  · exact h
  · rename_i hpend
    split
    · rename_i hproc
      split
      · exact h
      · rename_i hdef
        refine ⟨h.pendingNodup, h.processingNodup, ?_, h.pendingDisjoint, ?_⟩
        · simp [List.nodup_append, h.deferredNodup, hdef]
        · intro x hx
          rcases List.mem_append.mp hx with hx | hx
          · exact h.deferredSub x hx
          · simp at hx
            subst hx
            exact hproc
    · rename_i hproc
      refine ⟨?_, h.processingNodup, h.deferredNodup, ?_, h.deferredSub⟩
      · simp [List.nodup_append, h.pendingNodup, hpend]
      · intro x hx
        rcases List.mem_append.mp hx with hx | hx
        · exact h.pendingDisjoint x hx
        · simp at hx
          subst hx
          exact hproc

/-- What `Get` hands back: the oldest pending key, moved to the
processing set. -/
theorem wqGet_eq (q : WorkQueue) (k : String) (q2 : WorkQueue)
    (hget : wqGet q = some (k, q2)) :
    q.pending = k :: q2.pending ∧ q2.processing = q.processing ++ [k] ∧
      q2.deferredAdds = q.deferredAdds := by
  unfold wqGet at hget
  cases hq : q.pending with
  | nil => rw [hq] at hget; simp at hget
  | cons a rest =>
    rw [hq] at hget
    simp at hget
    obtain ⟨h1, h2⟩ := hget
    subst h1
    subst h2
    simp [hq]

/-- `Get` preserves the queue invariant. -/
theorem wqInv_get (q : WorkQueue) (k : String) (q2 : WorkQueue)
    (hget : wqGet q = some (k, q2)) (h : WQInv q) : WQInv q2 := by
  obtain ⟨hp, hproc, hdef⟩ := wqGet_eq q k q2 hget
  have hnodup : (k :: q2.pending).Nodup := hp ▸ h.pendingNodup
  have hkproc : k ∉ q.processing :=
    h.pendingDisjoint k (by rw [hp]; exact List.mem_cons_self k _)
  have hkrest : k ∉ q2.pending := (List.nodup_cons.mp hnodup).1
  refine ⟨(List.nodup_cons.mp hnodup).2, ?_, hdef ▸ h.deferredNodup, ?_, ?_⟩
  · rw [hproc]
    simp [List.nodup_append, h.processingNodup, hkproc]
  · intro x hx hmem
    have hxq : x ∈ q.pending := by rw [hp]; exact List.mem_cons_of_mem k hx
    have hxk : x ≠ k := fun he => hkrest (he ▸ hx)
    rw [hproc] at hmem
    rcases List.mem_append.mp hmem with hm | hm
    · exact h.pendingDisjoint x hxq hm
    · simp at hm
      exact hxk hm
  · intro x hx
    rw [hdef] at hx
    rw [hproc]
    exact List.mem_append.mpr (Or.inl (h.deferredSub x hx))

/-- `Done` preserves the queue invariant. -/
theorem wqInv_done (q : WorkQueue) (k : String) (h : WQInv q) : WQInv (wqDone q k) := by
  unfold wqDone
  split
  · rename_i hdef
    have hkproc : k ∈ q.processing := h.deferredSub k hdef
    have hknotpend : k ∉ q.pending := fun hm => h.pendingDisjoint k hm hkproc
    refine ⟨?_, h.processingNodup.erase k, h.deferredNodup.erase k, ?_, ?_⟩
    · simp [List.nodup_append, h.pendingNodup, hknotpend]
    · intro x hx
      rcases List.mem_append.mp hx with hm | hm
      · intro hmem
        exact h.pendingDisjoint x hm (List.mem_of_mem_erase hmem)
      · simp at hm
        subst hm
        exact h.processingNodup.not_mem_erase
    · intro x hx
      have hxk : x ≠ k := by
        intro hxk
        subst hxk
        exact h.deferredNodup.not_mem_erase hx
      have hxdef : x ∈ q.deferredAdds := List.mem_of_mem_erase hx
      exact (List.mem_erase_of_ne hxk).mpr (h.deferredSub x hxdef)
  · rename_i hdef
    refine ⟨h.pendingNodup, h.processingNodup.erase k, h.deferredNodup, ?_, ?_⟩
    · intro x hx hmem
      exact h.pendingDisjoint x hx (List.mem_of_mem_erase hmem)
    · intro x hx
      have hxk : x ≠ k := fun hxk => hdef (hxk ▸ hx)
      exact (List.mem_erase_of_ne hxk).mpr (h.deferredSub x hx)

/-- Every reachable queue state satisfies the invariant. -/
theorem wqInv_reachable (q : WorkQueue) (h : WQReachable q) : WQInv q := by
  induction h with
  | init => exact wqInv_empty
  | step p p2 _ hs ih =>
    cases hs with
    | add k => exact wqInv_add p k ih
    | get k _ hg => exact wqInv_get p k p2 hg ih
    | done k => exact wqInv_done p k ih

/-! ## Theorems: the sync loop -/

/-- A batch has at least as many calls as failures. -/
theorem countFails_le (f : Nat → Bool) (n : Nat) : countFails f n ≤ n := by
  unfold countFails
  calc ((List.range n).filter f).length
      ≤ (List.range n).length := List.length_filter_le _ _
    _ = n := List.length_range n

/-- A reliable batch has no failures. -/
theorem countFails_false (n : Nat) : countFails (fun _ => false) n = 0 := by
  simp [countFails]

/-- The manage step the sync runs. -/
def syncManage (inp : SyncInputs) (job : Job) : ManageResult :=
  manageJob inp.pc job.spec.parallelism job.spec.completions
    (jobActive job inp.podsAtList) (jobSuccessful job inp.podsAtList)
    (jobUnsuccessful job inp.podsAtList) job.spec.restartPolicy

/-- The status the sync computes. -/
def syncStatus (inp : SyncInputs) (job : Job) : JobStatus :=
  { conditions := updateConditions
      (jobSuccessful job inp.podsAtList + jobUnsuccessful job inp.podsAtList)
      job.spec.completions job.status.conditions,
    active := (syncManage inp job).active,
    successful := jobSuccessful job inp.podsAtList,
    unsuccessful := jobUnsuccessful job inp.podsAtList }

/-- Under a found job, a synced pod store and satisfied expectations,
`syncJob` runs the reconciliation core. -/
theorem syncJob_eq_core (inp : SyncInputs) (job : Job)
    (hfind : findJob inp.jobStore inp.key = some job)
    (hsync : inp.podStoreSynced = true) (hsat : inp.satisfied = true) :
    syncJob inp = syncCore inp job := by
  unfold syncJob
  rw [hfind]
  simp [hsync, hsat]

/-- The core's created batch is the manage step's. -/
theorem syncCore_createsIssued (inp : SyncInputs) (job : Job) :
    (syncCore inp job).createsIssued = (syncManage inp job).createsIssued := rfl

/-- The core's deleted batch is the manage step's. -/
theorem syncCore_deletesIssued (inp : SyncInputs) (job : Job) :
    (syncCore inp job).deletesIssued = (syncManage inp job).deletesIssued := rfl

/-- The core's recorded creates are the successful calls of the batch. -/
theorem syncCore_createsRecorded (inp : SyncInputs) (job : Job) :
    (syncCore inp job).createsRecorded =
      (syncManage inp job).createsIssued - (syncManage inp job).createsFailed := rfl

/-- The core's outstanding-add counter is the manage step's. -/
theorem syncCore_expAdd (inp : SyncInputs) (job : Job) :
    (syncCore inp job).expAdd = (syncManage inp job).expAdd := rfl

/-- The core's outstanding-delete counter is the manage step's. -/
theorem syncCore_expDel (inp : SyncInputs) (job : Job) :
    (syncCore inp job).expDel = (syncManage inp job).expDel := rfl

/-- The core's recorded deletes are the successful calls of the batch. -/
theorem syncCore_deletesRecorded (inp : SyncInputs) (job : Job) :
    (syncCore inp job).deletesRecorded =
      (syncManage inp job).deletesIssued - (syncManage inp job).deletesFailed := rfl

/-- The core computes `syncStatus`. -/
theorem syncCore_computed (inp : SyncInputs) (job : Job) :
    (syncCore inp job).computed = some (syncStatus inp job) := rfl

/-- The core never surfaces an error. -/
theorem syncCore_err (inp : SyncInputs) (job : Job) :
    (syncCore inp job).err = false := rfl

/-- C6: a key whose job is absent from the job cache store has its
expectations cleared by the sync, which issues no creates and no
deletes and returns no error (`TestSyncJobDeleted`; §4.5 step 1). -/
theorem sync_deleted_job_clears_expectations (inp : SyncInputs)
    (hfind : findJob inp.jobStore inp.key = none) :
    syncJob inp = { noopSync with expectationsDeleted := true } := by
  unfold syncJob
  rw [hfind]

/-- Witness for C6: the `TestSyncJobDeleted` setup, a job never added to
the store; the sync only clears expectations. -/
theorem sync_deleted_job_witness :
    syncJob { testInputs 2 2 RestartPolicy.onFailure 0 0 0 reliablePodControl
              with jobStore := [] } =
      { noopSync with expectationsDeleted := true } :=
  sync_deleted_job_clears_expectations
    { testInputs 2 2 RestartPolicy.onFailure 0 0 0 reliablePodControl
      with jobStore := [] } rfl

/-- C3: when `SatisfiedExpectations` answers false, the sync is a
no-op: no pod-control call is issued, expectations are untouched and the
status is not altered — whatever the pod store holds at listing time, in
particular when pods were added to it after the expectations check
(§4.5 step 2; the fake of `TestSyncJobExpectations` injects the answer
and mutates the pod store during the check). -/
theorem sync_unsatisfied_noop (inp : SyncInputs) (job : Job)
    (hfind : findJob inp.jobStore inp.key = some job)
    (hsync : inp.podStoreSynced = true) (hsat : inp.satisfied = false) :
    syncJob inp = noopSync := by
  unfold syncJob
  rw [hfind]
  simp [hsync, hsat]

/-- Witness for C3: the `TestSyncJobExpectations` setup with the faked
answer set to false — two pending pods are in the store by listing time
(the second slipped in after the expectations check), yet the sync does
nothing: zero creates, zero deletes, no status update. -/
theorem sync_unsatisfied_noop_witness :
    syncJob { testInputs 2 2 RestartPolicy.onFailure 0 0 0 reliablePodControl
              with satisfied := false,
                   podsAtList := newPodList 2 PodPhase.pending
                     (newJob 2 2 RestartPolicy.onFailure) "pend-" } = noopSync :=
  sync_unsatisfied_noop
    { testInputs 2 2 RestartPolicy.onFailure 0 0 0 reliablePodControl
      with satisfied := false,
           podsAtList := newPodList 2 PodPhase.pending
             (newJob 2 2 RestartPolicy.onFailure) "pend-" }
    (newJob 2 2 RestartPolicy.onFailure) (by decide) rfl rfl

/-- The created batch of the manage step: the gap up to parallelism,
clamped above by the remaining need beyond the already-active pods. -/
theorem manageJob_createsIssued (pc : PodControl) (P C A s u : Int)
    (pol : RestartPolicy) :
    (manageJob pc P C A s u pol).createsIssued =
      (min (P - A) (C - s - (if pol = RestartPolicy.never then u else 0) - A)).toNat := by
  unfold manageJob
  split
  · dsimp only
    rw [Int.min_def]
    split <;> omega
  · split
    · dsimp only
      rw [Int.min_def, Int.min_def]
      split <;> split <;> omega
    · dsimp only
      rw [Int.min_def]
      split <;> omega

/-- The deleted batch of the manage step: the active surplus beyond
parallelism. -/
theorem manageJob_deletesIssued (pc : PodControl) (P C A s u : Int)
    (pol : RestartPolicy) :
    (manageJob pc P C A s u pol).deletesIssued = (A - P).toNat := by
  unfold manageJob
  split
  · rfl
  · split
    · dsimp only
      omega
    · dsimp only
      omega

/-- Completed executions split into the two computed counters. -/
theorem jobDone_def (job : Job) (store : List Pod) :
    jobDone job store = jobSuccessful job store + jobUnsuccessful job store := rfl

/-- Outside restart policy Never the sync counts no unsuccessful pods. -/
theorem jobUnsuccessful_of_not_never (job : Job) (store : List Pod)
    (h : job.spec.restartPolicy ≠ RestartPolicy.never) :
    jobUnsuccessful job store = 0 := by
  unfold jobUnsuccessful getStatusCounts
  simp [h]

/-- C2 (amended): the sync's action delta is `parallelism - active`
clamped above by the remaining need beyond already-active pods, where
the remaining need is `completions` minus completed executions
(succeeded pods plus, under restart policy Never, failed pods): the
positive part is issued as creates, and an active surplus beyond
parallelism is issued as deletes. -/
theorem sync_action_delta (inp : SyncInputs) (job : Job)
    (hfind : findJob inp.jobStore inp.key = some job)
    (hsync : inp.podStoreSynced = true) (hsat : inp.satisfied = true) :
    (syncJob inp).createsIssued =
      (min (job.spec.parallelism - jobActive job inp.podsAtList)
        (job.spec.completions - jobDone job inp.podsAtList -
          jobActive job inp.podsAtList)).toNat ∧
    (syncJob inp).deletesIssued =
      (jobActive job inp.podsAtList - job.spec.parallelism).toNat := by
  rw [syncJob_eq_core inp job hfind hsync hsat]
  constructor
  · rw [syncCore_createsIssued]
    unfold syncManage
    rw [manageJob_createsIssued]
    by_cases hpol : job.spec.restartPolicy = RestartPolicy.never
    · rw [if_pos hpol, jobDone_def]
      congr 2
      ring
    · rw [if_neg hpol, jobDone_def,
        jobUnsuccessful_of_not_never job inp.podsAtList hpol]
      congr 2
      ring
  · rw [syncCore_deletesIssued]
    unfold syncManage
    rw [manageJob_deletesIssued]

/-- Counterexample for C2 as stated: with parallelism 2, completions 5,
restart policy Never, no active pods, 2 succeeded and 3 failed pods, the
claimed delta `min(parallelism - active, completions - successful -
active) = min(2, 3) = 2` is positive, yet the sync issues no create at
all (the remaining need also subtracts the failed pods under policy
Never, as the row "job finish and Never restart policy" of
`TestControllerSyncJob` expects). -/
theorem sync_action_delta_cex :
    (syncJob (testInputs 2 5 RestartPolicy.never 0 2 3 reliablePodControl)).createsIssued
        = 0 ∧
      (0 : Int) < min ((2 : Int) - 0) ((5 : Int) - 2 - 0) := by
  constructor
  · decide
  · decide

/-- Witness for C2: the two scenario rows of the claim — 10 active pods
against parallelism 2 yield exactly 8 deletes, and an empty pod set
against parallelism 2, completions 5 yields exactly 2 creates. -/
theorem sync_action_delta_witness :
    (syncJob (testInputs 2 5 RestartPolicy.onFailure 10 0 0 reliablePodControl)).deletesIssued
        = 8 ∧
      (syncJob (testInputs 2 5 RestartPolicy.onFailure 0 0 0 reliablePodControl)).createsIssued
        = 2 := by
  have h1 := sync_action_delta
    (testInputs 2 5 RestartPolicy.onFailure 10 0 0 reliablePodControl)
    (newJob 2 5 RestartPolicy.onFailure) (by decide) rfl rfl
  have h2 := sync_action_delta
    (testInputs 2 5 RestartPolicy.onFailure 0 0 0 reliablePodControl)
    (newJob 2 5 RestartPolicy.onFailure) (by decide) rfl rfl
  refine ⟨?_, ?_⟩
  · rw [h1.2]
    decide
  · rw [h2.1]
    decide

/-- With a reliable pod control the manage step leaves the active count
at parallelism when it deleted a surplus, at the clamp of remaining need
and parallelism when it created, and untouched otherwise. -/
theorem manageJob_active_reliable (P C A s u : Int) (pol : RestartPolicy) :
    (manageJob reliablePodControl P C A s u pol).active =
      if P < A then P
      else if A < P then
        min (C - s - (if pol = RestartPolicy.never then u else 0)) P
      else A := by
  unfold manageJob
  split
  · dsimp only [reliablePodControl]
    rw [countFails_false]
    simp
  · split
    · dsimp only [reliablePodControl]
      rw [countFails_false]
      simp
    · rfl

/-- The remaining-need expression of the manage step equals
`completions` minus the completed executions. -/
theorem remaining_eq_completions_sub_done (inp : SyncInputs) (job : Job) :
    job.spec.completions - jobSuccessful job inp.podsAtList -
      (if job.spec.restartPolicy = RestartPolicy.never
       then jobUnsuccessful job inp.podsAtList else 0) =
    job.spec.completions - jobDone job inp.podsAtList := by
  by_cases hpol : job.spec.restartPolicy = RestartPolicy.never
  · rw [if_pos hpol, jobDone_def]
    ring
  · rw [if_neg hpol, jobDone_def,
      jobUnsuccessful_of_not_never job inp.podsAtList hpol]
    ring

/-- C1 (amended): after one sync with no induced pod-control errors,
writing `done` for the completed executions (succeeded pods plus, under
restart policy Never, failed pods): provided parallelism is nonnegative,
`done` has not overshot `completions`, and — when the active count is
already at or above parallelism — the remaining need still covers a full
parallelism's worth, the computed status satisfies
`active = min(parallelism, completions - done)` while `done <
completions`, and `active = 0` once `done ≥ completions`. -/
theorem sync_status_active_converges (inp : SyncInputs) (job : Job)
    (hfind : findJob inp.jobStore inp.key = some job)
    (hsync : inp.podStoreSynced = true) (hsat : inp.satisfied = true)
    (hpc : inp.pc = reliablePodControl)
    (hP : 0 ≤ job.spec.parallelism)
    (hdone : jobDone job inp.podsAtList ≤ job.spec.completions)
    (hover : job.spec.parallelism ≤ jobActive job inp.podsAtList →
      job.spec.parallelism ≤
        job.spec.completions - jobDone job inp.podsAtList) :
    (jobDone job inp.podsAtList < job.spec.completions →
      (syncStatus inp job).active =
        min job.spec.parallelism
          (job.spec.completions - jobDone job inp.podsAtList)) ∧
    (job.spec.completions ≤ jobDone job inp.podsAtList →
      (syncStatus inp job).active = 0) ∧
    (syncJob inp).computed = some (syncStatus inp job) := by
  have hact : (syncStatus inp job).active =
      if job.spec.parallelism < jobActive job inp.podsAtList then
        job.spec.parallelism
      else if jobActive job inp.podsAtList < job.spec.parallelism then
        min (job.spec.completions - jobDone job inp.podsAtList)
          job.spec.parallelism
      else jobActive job inp.podsAtList := by
    show (syncManage inp job).active = _
    unfold syncManage
    rw [hpc, manageJob_active_reliable,
      remaining_eq_completions_sub_done inp job]
  refine ⟨?_, ?_, ?_⟩
  · intro hlt
    rw [hact]
    rcases lt_trichotomy job.spec.parallelism (jobActive job inp.podsAtList)
      with h | h | h
    · have h2 := hover (le_of_lt h)
      rw [if_pos h, Int.min_def]
      split <;> omega
    · have h2 := hover (by omega)
      rw [if_neg (by omega), if_neg (by omega), Int.min_def]
      split <;> omega
    · rw [if_neg (by omega), if_pos h, Int.min_def, Int.min_def]
      split <;> split <;> omega
  · intro hge
    rw [hact]
    rcases lt_trichotomy job.spec.parallelism (jobActive job inp.podsAtList)
      with h | h | h
    · have h2 := hover (le_of_lt h)
      rw [if_pos h]
      omega
    · have h2 := hover (by omega)
      rw [if_neg (by omega), if_neg (by omega)]
      omega
    · rw [if_neg (by omega), if_pos h, Int.min_def]
      split <;> omega
  · rw [syncJob_eq_core inp job hfind hsync hsat]
    exact syncCore_computed inp job

/-- Counterexample for C1 as stated: with parallelism 2, completions 5,
restart policy Never, 2 succeeded and 3 failed pods, the persisted
status has `successful = 2 < 5` yet `active = 0`, not
`min(parallelism, completions - successful) = 2`: failed pods count
toward completion under policy Never (row "job finish and Never restart
policy" of `TestControllerSyncJob`). -/
theorem sync_status_active_cex :
    (syncJob (testInputs 2 5 RestartPolicy.never 0 2 3 reliablePodControl)).computed.map
        JobStatus.successful = some 2 ∧
    (syncJob (testInputs 2 5 RestartPolicy.never 0 2 3 reliablePodControl)).computed.map
        JobStatus.active = some 0 ∧
    ¬((0 : Int) = min 2 (5 - 2)) := by
  refine ⟨by decide, by decide, by decide⟩

/-- Witness for C1: the "too few active pods" row — parallelism 2,
completions 5, one active and one succeeded pod; after the sync the
persisted active count is `min(2, 5 - 1) = 2`. -/
theorem sync_status_active_witness :
    (syncJob (testInputs 2 5 RestartPolicy.onFailure 1 1 0 reliablePodControl)).computed.map
        JobStatus.active = some 2 := by
  have h := sync_status_active_converges
    (testInputs 2 5 RestartPolicy.onFailure 1 1 0 reliablePodControl)
    (newJob 2 5 RestartPolicy.onFailure) (by decide) rfl rfl rfl
    (by decide) (by decide) (by decide)
  rw [h.2.2, Option.map_some', h.1 (by decide)]
  decide

/-- A condition list extended with the complete condition carries it. -/
theorem hasComplete_append_complete (conds : List JobCondition) :
    hasCompleteCondition (conds ++ [completeCondition]) = true := by
  simp [hasCompleteCondition, List.any_append, completeCondition]

/-- The condition update leaves the complete condition present exactly
when the job reached its target or the condition was already there. -/
theorem hasComplete_updateConditions (done completions : Int)
    (conds : List JobCondition) :
    hasCompleteCondition (updateConditions done completions conds) = true ↔
      (completions ≤ done ∨ hasCompleteCondition conds = true) := by
  unfold updateConditions
  split
  · rename_i h
    constructor
    · intro _
      exact Or.inl h.1
    · intro _
      exact hasComplete_append_complete conds
  · rename_i h
    constructor
    · exact fun hc => Or.inr hc
    · rintro (hc | hc)
      · cases hb : hasCompleteCondition conds with
        | true => rfl
        | false => exact absurd ⟨hc, hb⟩ h
      · exact hc

/-- The condition update is idempotent: a second pass appends nothing. -/
theorem updateConditions_idem (done completions : Int)
    (conds : List JobCondition) :
    updateConditions done completions (updateConditions done completions conds) =
      updateConditions done completions conds := by
  by_cases h : completions ≤ done ∧ hasCompleteCondition conds = false
  · have hinner : updateConditions done completions conds =
        conds ++ [completeCondition] := by
      unfold updateConditions
      rw [if_pos h]
    rw [hinner]
    unfold updateConditions
    rw [if_neg]
    intro hc
    rw [hasComplete_append_complete] at hc
    simp at hc
  · have hinner : updateConditions done completions conds = conds := by
      unfold updateConditions
      rw [if_neg h]
    rw [hinner]
    exact hinner

/-- C4 (amended): the sync's status carries the terminal complete
condition exactly when the completed executions (succeeded pods plus,
under restart policy Never, failed pods) reach `completions` — or the
condition was already present — and a repeated sync on the updated job
never duplicates it: the condition is set exactly once. -/
theorem sync_complete_condition (inp : SyncInputs) (job : Job)
    (hfind : findJob inp.jobStore inp.key = some job)
    (hsync : inp.podStoreSynced = true) (hsat : inp.satisfied = true) :
    (syncJob inp).computed = some (syncStatus inp job) ∧
    (hasCompleteCondition (syncStatus inp job).conditions = true ↔
      (job.spec.completions ≤ jobDone job inp.podsAtList ∨
        hasCompleteCondition job.status.conditions = true)) ∧
    (∀ inp2 : SyncInputs,
      findJob inp2.jobStore inp2.key =
          some { job with status := syncStatus inp job } →
        inp2.podStoreSynced = true → inp2.satisfied = true →
        inp2.podsAtList = inp.podsAtList →
        (syncJob inp2).computed.map JobStatus.conditions =
          some (syncStatus inp job).conditions) := by
  refine ⟨?_, ?_, ?_⟩
  · rw [syncJob_eq_core inp job hfind hsync hsat]
    exact syncCore_computed inp job
  · exact hasComplete_updateConditions _ _ _
  · intro inp2 hfind2 hsync2 hsat2 hpods
    rw [syncJob_eq_core inp2 _ hfind2 hsync2 hsat2, syncCore_computed,
      Option.map_some']
    show some (updateConditions
        (jobSuccessful { job with status := syncStatus inp job } inp2.podsAtList +
          jobUnsuccessful { job with status := syncStatus inp job } inp2.podsAtList)
        job.spec.completions (syncStatus inp job).conditions) = _
    rw [hpods]
    show some (updateConditions
        (jobSuccessful job inp.podsAtList + jobUnsuccessful job inp.podsAtList)
        job.spec.completions
        (updateConditions
          (jobSuccessful job inp.podsAtList + jobUnsuccessful job inp.podsAtList)
          job.spec.completions job.status.conditions)) = _
    rw [updateConditions_idem]
    rfl

/-- Counterexample for C4 as stated: with parallelism 2, completions 5,
restart policy Never, 2 succeeded and 3 failed pods, the sync appends
the terminal complete condition although `successful = 2 < 5 =
completions`: under policy Never the failed pods also count toward
completion (row "job finish and Never restart policy" of
`TestControllerSyncJob`). -/
theorem sync_complete_condition_cex :
    (syncJob (testInputs 2 5 RestartPolicy.never 0 2 3 reliablePodControl)).computed.map
        (fun st => hasCompleteCondition st.conditions) = some true ∧
    (syncJob (testInputs 2 5 RestartPolicy.never 0 2 3 reliablePodControl)).computed.map
        JobStatus.successful = some 2 ∧
    ¬((5 : Int) ≤ 2) := by
  refine ⟨by decide, by decide, by decide⟩

/-- Witness for C4: the "job finish and OnFailure restart policy" row —
5 succeeded pods against completions 5; the synced status carries the
complete condition. -/
theorem sync_complete_condition_witness :
    (syncJob (testInputs 2 5 RestartPolicy.onFailure 0 5 0 reliablePodControl)).computed.map
      (fun st => hasCompleteCondition st.conditions) = some true := by
  have h := sync_complete_condition
    (testInputs 2 5 RestartPolicy.onFailure 0 5 0 reliablePodControl)
    (newJob 2 5 RestartPolicy.onFailure) (by decide) rfl rfl
  have hc := (h.2.1).mpr (Or.inl (by decide))
  rw [h.1, Option.map_some', hc]

/-- The manage step the sync runs, spelled out. -/
theorem syncManage_def (inp : SyncInputs) (job : Job) :
    syncManage inp job = manageJob inp.pc job.spec.parallelism
      job.spec.completions (jobActive job inp.podsAtList)
      (jobSuccessful job inp.podsAtList) (jobUnsuccessful job inp.podsAtList)
      job.spec.restartPolicy := rfl

/-- In the create branch, the manage step's failed count and
outstanding-add counter come from the batch's individual failures. -/
theorem manageJob_create_branch (pc : PodControl) (P C A s u : Int)
    (pol : RestartPolicy) (hA : A < P) :
    (manageJob pc P C A s u pol).createsFailed =
      countFails pc.createFails (manageJob pc P C A s u pol).createsIssued ∧
    (manageJob pc P C A s u pol).expAdd =
      some ((min (C - s - (if pol = RestartPolicy.never then u else 0)) P - A) -
        (countFails pc.createFails
          (manageJob pc P C A s u pol).createsIssued : Int)) := by
  unfold manageJob
  rw [if_neg (by omega), if_pos hA]
  exact ⟨rfl, rfl⟩

/-- In the delete branch, the manage step's failed count and
outstanding-delete counter come from the batch's individual failures. -/
theorem manageJob_delete_branch (pc : PodControl) (P C A s u : Int)
    (pol : RestartPolicy) (hA : P < A) :
    (manageJob pc P C A s u pol).deletesFailed =
      countFails pc.deleteFails (manageJob pc P C A s u pol).deletesIssued ∧
    (manageJob pc P C A s u pol).expDel =
      some ((A - P) -
        (countFails pc.deleteFails
          (manageJob pc P C A s u pol).deletesIssued : Int)) := by
  unfold manageJob
  rw [if_pos hA]
  exact ⟨rfl, rfl⟩

/-- C5 (amended): when a requested batch of N creates (or deletes) has
K individual failures, the sync still issues the full batch,
compensates the outstanding create (resp. delete) expectations counter
down to `N - K`, commits the `N - K` calls that succeeded, and returns
no error: the failures are reported out of band
(`TestControllerSyncJob` asserts a nil error from `syncJob` in its
"with controller error" rows). -/
theorem sync_partial_failure_compensation (inp : SyncInputs) (job : Job)
    (hfind : findJob inp.jobStore inp.key = some job)
    (hsync : inp.podStoreSynced = true) (hsat : inp.satisfied = true) :
    (0 < (syncJob inp).createsIssued →
      (syncJob inp).expAdd =
        some (((syncJob inp).createsIssued : Int) -
          (countFails inp.pc.createFails (syncJob inp).createsIssued : Int)) ∧
      (syncJob inp).createsRecorded =
        (syncJob inp).createsIssued -
          countFails inp.pc.createFails (syncJob inp).createsIssued ∧
      countFails inp.pc.createFails (syncJob inp).createsIssued ≤
        (syncJob inp).createsIssued) ∧
    (0 < (syncJob inp).deletesIssued →
      (syncJob inp).expDel =
        some (((syncJob inp).deletesIssued : Int) -
          (countFails inp.pc.deleteFails (syncJob inp).deletesIssued : Int)) ∧
      (syncJob inp).deletesRecorded =
        (syncJob inp).deletesIssued -
          countFails inp.pc.deleteFails (syncJob inp).deletesIssued ∧
      countFails inp.pc.deleteFails (syncJob inp).deletesIssued ≤
        (syncJob inp).deletesIssued) ∧
    (syncJob inp).err = false := by
  rw [syncJob_eq_core inp job hfind hsync hsat]
  rw [syncCore_createsIssued, syncCore_deletesIssued, syncCore_expAdd,
    syncCore_expDel, syncCore_createsRecorded, syncCore_deletesRecorded,
    syncCore_err]
  refine ⟨?_, ?_, rfl⟩
  · intro hN
    have hA : jobActive job inp.podsAtList < job.spec.parallelism := by
      by_contra hge
      rw [show (syncManage inp job).createsIssued =
          (min (job.spec.parallelism - jobActive job inp.podsAtList)
            (job.spec.completions - jobSuccessful job inp.podsAtList -
              (if job.spec.restartPolicy = RestartPolicy.never
               then jobUnsuccessful job inp.podsAtList else 0) -
            jobActive job inp.podsAtList)).toNat from
          manageJob_createsIssued inp.pc _ _ _ _ _ _] at hN
      rw [Int.min_def] at hN
      revert hN
      split <;> omega
    obtain ⟨hfail, hexp⟩ := manageJob_create_branch inp.pc job.spec.parallelism
      job.spec.completions (jobActive job inp.podsAtList)
      (jobSuccessful job inp.podsAtList) (jobUnsuccessful job inp.podsAtList)
      job.spec.restartPolicy hA
    rw [← syncManage_def inp job] at hfail hexp
    have hissued : ((syncManage inp job).createsIssued : Int) =
        min (job.spec.completions - jobSuccessful job inp.podsAtList -
          (if job.spec.restartPolicy = RestartPolicy.never
           then jobUnsuccessful job inp.podsAtList else 0))
          job.spec.parallelism - jobActive job inp.podsAtList := by
      rw [syncManage_def inp job, manageJob_createsIssued]
      rw [syncManage_def inp job, manageJob_createsIssued] at hN
      rw [Int.min_def] at hN ⊢
      revert hN
      split <;> split <;> omega
    refine ⟨?_, ?_, countFails_le _ _⟩
    · rw [hexp, hissued]
    · rw [hfail]
  · intro hN
    have hA : job.spec.parallelism < jobActive job inp.podsAtList := by
      by_contra hge
      rw [syncManage_def inp job, manageJob_deletesIssued] at hN
      omega
    obtain ⟨hfail, hexp⟩ := manageJob_delete_branch inp.pc job.spec.parallelism
      job.spec.completions (jobActive job inp.podsAtList)
      (jobSuccessful job inp.podsAtList) (jobUnsuccessful job inp.podsAtList)
      job.spec.restartPolicy hA
    rw [← syncManage_def inp job] at hfail hexp
    have hissued : ((syncManage inp job).deletesIssued : Int) =
        jobActive job inp.podsAtList - job.spec.parallelism := by
      rw [syncManage_def inp job, manageJob_deletesIssued]
      omega
    refine ⟨?_, ?_, countFails_le _ _⟩
    · rw [hexp, hissued]
    · rw [hfail]

/-- Counterexample for C5 as stated: with parallelism 2, completions 5,
no pods, and a pod control whose every call fails, the sync issues the
full batch of 2 creates, both fail and nothing is committed — yet the
sync returns no error, against the claim that the failures are
aggregated into one returned error for the cycle
(`TestControllerSyncJob` asserts a nil error in its "with controller
error" rows). -/
theorem sync_partial_failure_cex :
    (syncJob (testInputs 2 5 RestartPolicy.onFailure 0 0 0 failingPodControl)).createsIssued
        = 2 ∧
    (syncJob (testInputs 2 5 RestartPolicy.onFailure 0 0 0 failingPodControl)).createsRecorded
        = 0 ∧
    (syncJob (testInputs 2 5 RestartPolicy.onFailure 0 0 0 failingPodControl)).err
        = false := by
  refine ⟨by decide, by decide, by decide⟩

/-- Witness for C5: an all-fail batch of 2 creates (the "job start" pods
with a failing pod control) has its outstanding-add counter compensated
down to `2 - 2 = 0`, an all-fail batch of 1 delete (the "too many active
pods" row) has its outstanding-delete counter compensated down to
`1 - 1 = 0`, and the sync surfaces no error. -/
theorem sync_partial_failure_witness :
    (syncJob (testInputs 2 5 RestartPolicy.onFailure 0 0 0 failingPodControl)).expAdd
        = some 0 ∧
    (syncJob (testInputs 2 5 RestartPolicy.onFailure 3 0 0 failingPodControl)).expDel
        = some 0 ∧
    (syncJob (testInputs 2 5 RestartPolicy.onFailure 0 0 0 failingPodControl)).err
        = false := by
  have hc := sync_partial_failure_compensation
    (testInputs 2 5 RestartPolicy.onFailure 0 0 0 failingPodControl)
    (newJob 2 5 RestartPolicy.onFailure) (by decide) rfl rfl
  have hd := sync_partial_failure_compensation
    (testInputs 2 5 RestartPolicy.onFailure 3 0 0 failingPodControl)
    (newJob 2 5 RestartPolicy.onFailure) (by decide) rfl rfl
  refine ⟨?_, ?_, hc.2.2⟩
  · rw [(hc.1 (by decide)).1]
    decide
  · rw [(hd.2.1 (by decide)).1]
    decide

/-- The core's update hook call happens exactly when the computed
status differs from the stored one. -/
theorem syncCore_updated (inp : SyncInputs) (job : Job) :
    (syncCore inp job).updated =
      if syncStatus inp job ≠ job.status then some (syncStatus inp job)
      else none := rfl

/-- The core requeues exactly when the status changed and the update
hook failed. -/
theorem syncCore_requeued (inp : SyncInputs) (job : Job) :
    (syncCore inp job).requeued =
      decide (syncStatus inp job ≠ job.status ∧ inp.updateFails = true) := rfl

/-- C7: when the status-update hook fails during a sync that had a
status change to persist, the key is put back on the work queue — the
next `Get` hands out that same key — and the sync does not propagate the
update failure as an error (`TestSyncJobUpdateRequeue`; §4.5 step 6). -/
theorem sync_update_failure_requeues (inp : SyncInputs) (job : Job)
    (st : JobStatus)
    (hfind : findJob inp.jobStore inp.key = some job)
    (hsync : inp.podStoreSynced = true) (hsat : inp.satisfied = true)
    (hupd : inp.updateFails = true)
    (hchanged : (syncJob inp).updated = some st) :
    (syncJob inp).err = false ∧ (syncJob inp).requeued = true ∧
    (wqGet (requeueAfterSync inp emptyQueue)).map Prod.fst = some inp.key := by
  have hcore := syncJob_eq_core inp job hfind hsync hsat
  rw [hcore] at hchanged
  have hne : syncStatus inp job ≠ job.status := by
    intro he
    rw [syncCore_updated, if_neg (not_not_intro he)] at hchanged
    simp at hchanged
  have hreq : (syncJob inp).requeued = true := by
    rw [hcore, syncCore_requeued]
    simp [hne, hupd]
  refine ⟨by rw [hcore]; exact syncCore_err inp job, hreq, ?_⟩
  rw [requeueAfterSync, if_pos hreq]
  simp [wqAdd, emptyQueue, wqGet]

/-- Witness for C7: the `TestSyncJobUpdateRequeue` setup — a job with
parallelism 2, no pods, and a failing update hook; the sync returns no
error and the queue's next `Get` yields the job's key. -/
theorem sync_update_failure_requeues_witness :
    (syncJob { testInputs 2 2 RestartPolicy.onFailure 0 0 0 reliablePodControl
               with updateFails := true }).err = false ∧
    (syncJob { testInputs 2 2 RestartPolicy.onFailure 0 0 0 reliablePodControl
               with updateFails := true }).requeued = true ∧
    (wqGet (requeueAfterSync
        { testInputs 2 2 RestartPolicy.onFailure 0 0 0 reliablePodControl
          with updateFails := true } emptyQueue)).map Prod.fst =
      some { testInputs 2 2 RestartPolicy.onFailure 0 0 0 reliablePodControl
             with updateFails := true }.key :=
  sync_update_failure_requeues
    { testInputs 2 2 RestartPolicy.onFailure 0 0 0 reliablePodControl
      with updateFails := true }
    (newJob 2 2 RestartPolicy.onFailure)
    { conditions := [], active := 2, successful := 0, unsuccessful := 0 }
    (by decide) rfl rfl rfl (by decide)

/-- C8: a pod is resolved to a job only when the pod's namespace equals
the job's namespace and the job's selector matches the pod's labels; a
pod with no labels is resolved to no job at all (`TestJobPodLookup`). -/
theorem getPodJob_matches (store : List Job) (pod : Pod) :
    (∀ job, getPodJob store pod = some job →
      job.ns = pod.ns ∧ selectorMatches job.spec.selector pod.labels = true) ∧
    (pod.labels = [] → getPodJob store pod = none) := by
  constructor
  · intro job hfound
    unfold getPodJob at hfound
    split at hfound
    · simp at hfound
    · have hpred := List.find?_some hfound
      simp at hpred
      exact ⟨hpred.1, hpred.2.2⟩
  · intro hlab
    unfold getPodJob
    rw [hlab]
    simp

/-- Witness for C8: the third `TestJobPodLookup` case — job "bar" in
namespace "ns" with selector `foo=bar` is resolved for a pod in "ns"
with matching labels, and the resolution satisfies the namespace and
selector guarantees; the first case's label-less pod resolves to
nothing. -/
theorem getPodJob_matches_witness :
    (getPodJob
        [{ name := "bar", ns := "ns",
           spec := { parallelism := 0, completions := 0,
                     selector := [("foo", "bar")],
                     restartPolicy := RestartPolicy.onFailure },
           status := { conditions := [], active := 0, successful := 0,
                       unsuccessful := 0 } }]
        { name := "foo3", ns := "ns", labels := [("foo", "bar")],
          phase := PodPhase.running }).map Job.name = some "bar" ∧
    getPodJob
        [{ name := "basic", ns := "default",
           spec := { parallelism := 0, completions := 0, selector := [],
                     restartPolicy := RestartPolicy.onFailure },
           status := { conditions := [], active := 0, successful := 0,
                       unsuccessful := 0 } }]
        { name := "foo1", ns := "default", labels := [],
          phase := PodPhase.running } = none := by
  constructor
  · decide
  · exact (getPodJob_matches _ _).2 rfl

/-- The §8 queue scenario: `Add` of the same key twice before any
`Get`. -/
def wqScenario1 : WorkQueue :=
  wqAdd (wqAdd emptyQueue "default/foobar") "default/foobar"

/-- The scenario after the one `Get`: the key is in flight. -/
def wqScenario2 : WorkQueue :=
  { pending := [], processing := ["default/foobar"], deferredAdds := [] }

/-- The scenario after a third `Add` made while the key is in flight. -/
def wqScenario3 : WorkQueue := wqAdd wqScenario2 "default/foobar"

/-- The scenario after `Done`: the deferred add is re-queued. -/
def wqScenario4 : WorkQueue := wqDone wqScenario3 "default/foobar"

/-- C9: the work queue deduplicates per key.  Every reachable queue
state holds at most one pending and at most one in-flight instance of
any key; two `Add`s of a key before any `Get` leave exactly one pending
instance and yield exactly one dequeue, and an `Add` issued while the
key is being processed is not delivered until `Done`, after which it
yields exactly one more dequeue (§4.2, §8). -/
theorem workqueue_dedup_per_key (q : WorkQueue) (hq : WQReachable q)
    (k : String) :
    (q.pending.count k ≤ 1 ∧ q.processing.count k ≤ 1) ∧
    (wqScenario1.pending = ["default/foobar"] ∧
     wqGet wqScenario1 = some ("default/foobar", wqScenario2) ∧
     wqGet wqScenario2 = none ∧
     wqGet wqScenario3 = none ∧
     (wqGet wqScenario4).map Prod.fst = some "default/foobar") := by
  have hinv := wqInv_reachable q hq
  refine ⟨⟨List.nodup_iff_count_le_one.mp hinv.pendingNodup k,
    List.nodup_iff_count_le_one.mp hinv.processingNodup k⟩,
    by decide, by decide, by decide, by decide, by decide⟩

/-- Witness for C9: the scenario's in-flight state is reachable (two
`Add`s then one `Get` from the fresh queue) and satisfies the per-key
bounds. -/
theorem workqueue_dedup_per_key_witness :
    ((wqScenario2.pending.count "default/foobar" ≤ 1 ∧
      wqScenario2.processing.count "default/foobar" ≤ 1) ∧
    (wqScenario1.pending = ["default/foobar"] ∧
     wqGet wqScenario1 = some ("default/foobar", wqScenario2) ∧
     wqGet wqScenario2 = none ∧
     wqGet wqScenario3 = none ∧
     (wqGet wqScenario4).map Prod.fst = some "default/foobar")) :=
  workqueue_dedup_per_key wqScenario2
    (WQReachable.step wqScenario1 wqScenario2
      (WQReachable.step (wqAdd emptyQueue "default/foobar") wqScenario1
        (WQReachable.step emptyQueue (wqAdd emptyQueue "default/foobar")
          WQReachable.init
          (WQStep.add emptyQueue "default/foobar"))
        (WQStep.add (wqAdd emptyQueue "default/foobar") "default/foobar"))
      (WQStep.get wqScenario1 "default/foobar" wqScenario2 (by decide)))
    "default/foobar"

/-! ## Theorems: the pluralization namer -/

/-- C10: for a non-empty type name, `pluralNamer.Name` returns the
finalized exceptions-map entry whenever the name is one of its keys, and
otherwise pluralizes from the last character: "es" after "s" or "x", a
trailing "y" becomes "ies", and "s" in every other case.  The non-empty
precondition is what keeps the last-character index in range. -/
theorem pluralNamer_name_spec (exceptions : List (String × String))
    (finalize : String → String) (singular : String) (h : singular ≠ "") :
    (∀ plural, exceptionsGet exceptions singular = some plural →
      pluralNamerName exceptions finalize singular = some (finalize plural)) ∧
    (exceptionsGet exceptions singular = none →
      ∃ c, singular.toList.getLast? = some c ∧
        pluralNamerName exceptions finalize singular =
          some (finalize
            (if c = 's' ∨ c = 'x' then singular ++ "es"
             else if c = 'y' then String.mk singular.toList.dropLast ++ "ies"
             else singular ++ "s"))) := by
  constructor
  · intro plural hx
    unfold pluralNamerName
    rw [hx]
  · intro hx
    have hne : singular.toList ≠ [] := by
      intro hnil
      apply h
      apply String.toList_inj.mp
      rw [hnil]
      rfl
    cases hlast : singular.toList.getLast? with
    | none => exact absurd (List.getLast?_eq_none_iff.mp hlast) hne
    | some c =>
      refine ⟨c, rfl, ?_⟩
      unfold pluralNamerName
      rw [hx, hlast]
      dsimp only
      split
      · rfl
      · split
        · rfl
        · rfl

/-- Witness for C10: the name "box" with an empty exceptions map ends in
"x" and pluralizes to "boxes". -/
theorem pluralNamer_name_spec_witness :
    (∀ plural, exceptionsGet [] "box" = some plural →
      pluralNamerName [] id "box" = some (id plural)) ∧
    (exceptionsGet [] "box" = none →
      ∃ c, "box".toList.getLast? = some c ∧
        pluralNamerName [] id "box" =
          some (id
            (if c = 's' ∨ c = 'x' then "box" ++ "es"
             else if c = 'y' then String.mk "box".toList.dropLast ++ "ies"
             else "box" ++ "s"))) :=
  pluralNamer_name_spec [] id "box" (by decide)

/-- The pluralizer on concrete names: each suffix rule, an exception,
and the empty-name failure. -/
theorem pluralNamerName_examples :
    pluralNamerName [] id "Pod" = some "Pods" ∧
    pluralNamerName [] id "Ingress" = some "Ingresses" ∧
    pluralNamerName [] id "Proxy" = some "Proxies" ∧
    pluralNamerName [("Endpoints", "Endpoints")] id "Endpoints"
        = some "Endpoints" ∧
    pluralNamerName [] id "" = none := by
  refine ⟨by decide, by decide, by decide, by decide, by decide⟩

/-! ## Cross-validation against the test table -/

/-- One row of `TestControllerSyncJob`: run the sync on the row's job
and pods and compare the recorded pod-control calls, the persisted
counters, the completion condition and the returned error with the
row's expectations. -/
def rowMatches (parallelism completions : Int) (policy : RestartPolicy)
    (nActive nSucc nFail : Nat) (pc : PodControl)
    (expCreations expDeletions expActive expSuccessful expUnsuccessful : Int)
    (expComplete : Bool) : Bool :=
  let r := syncJob (testInputs parallelism completions policy nActive nSucc nFail pc)
  (r.createsRecorded : Int) = expCreations ∧
  (r.deletesRecorded : Int) = expDeletions ∧
  r.computed.map JobStatus.active = some expActive ∧
  r.computed.map JobStatus.successful = some expSuccessful ∧
  r.computed.map JobStatus.unsuccessful = some expUnsuccessful ∧
  r.computed.map (fun st => hasCompleteCondition st.conditions)
      = some expComplete ∧
  r.err = false

/-- The embedding reproduces all twelve rows of
`TestControllerSyncJob`, in the order of the test file. -/
theorem testControllerSyncJob_table :
    rowMatches 2 5 RestartPolicy.onFailure 0 0 0 reliablePodControl
      2 0 2 0 0 false = true ∧
    rowMatches 2 5 RestartPolicy.onFailure 2 0 0 reliablePodControl
      0 0 2 0 0 false = true ∧
    rowMatches 2 5 RestartPolicy.onFailure 1 1 0 reliablePodControl
      1 0 2 1 0 false = true ∧
    rowMatches 2 5 RestartPolicy.onFailure 1 1 0 failingPodControl
      0 0 1 1 0 false = true ∧
    rowMatches 2 5 RestartPolicy.onFailure 3 0 0 reliablePodControl
      0 1 2 0 0 false = true ∧
    rowMatches 2 5 RestartPolicy.onFailure 3 0 0 failingPodControl
      0 0 3 0 0 false = true ∧
    rowMatches 2 5 RestartPolicy.onFailure 1 1 1 reliablePodControl
      1 0 2 1 0 false = true ∧
    rowMatches 2 5 RestartPolicy.never 1 1 1 reliablePodControl
      1 0 2 1 1 false = true ∧
    rowMatches 2 5 RestartPolicy.onFailure 0 5 0 reliablePodControl
      0 0 0 5 0 true = true ∧
    rowMatches 2 5 RestartPolicy.never 0 2 3 reliablePodControl
      0 0 0 2 3 true = true ∧
    rowMatches 2 5 RestartPolicy.onFailure 10 0 0 reliablePodControl
      0 8 2 0 0 false = true ∧
    rowMatches 2 5 RestartPolicy.onFailure 2 2 0 reliablePodControl
      0 0 2 2 0 false = true := by
  refine ⟨by decide, by decide, by decide, by decide, by decide, by decide,
    by decide, by decide, by decide, by decide, by decide, by decide⟩

end KubeJob
